import Mathlib

/-!
Shallow embedding of the goa design DSL action builders
(`src/design/dsl/action.go`): `Action`, `Routing`, `Headers`, `Params`,
`Payload` and `newAttribute`, together with the context-resolver and
callback-executor contracts they rely on.

Go's in-place mutation is rendered as explicit state passing: each DSL
operation takes the innermost evaluation-context frame and returns the
updated frame together with the list of error messages it reported
(`ReportError` appends to a process-wide collector; here every operation
returns the messages it contributed, in report order).  Configuration
callbacks (`func()` values run via `executeDSL`) are modelled as pure
functions from the target definition to the mutated definition paired with
the success flag that `executeDSL` returns.
-/

namespace GoaDsl

/-- Data types of the design package, reduced to what the action DSL
touches: `Object{}` (assigned by `Payload`'s callback branch) and any other
type, tracked by name. -/
inductive DataType where
  | object : DataType
  | named : String → DataType
deriving DecidableEq, Repr

/-- design.AttributeDefinition, reduced to the fields this DSL reads or
writes: `Reference` (set by `newAttribute` from a media type), `Type`
(set to `Object{}` by `Payload`'s callback branch) and an abstract list of
member names standing for the content a configuration callback populates. -/
structure AttributeDefinition where
  reference : Option DataType := none
  type : Option DataType := none
  members : List String := []
deriving DecidableEq, Repr

/-- design.UserTypeDefinition: an embedded `*AttributeDefinition` (hence an
`Option`, `none` standing for a nil pointer) plus the type name. -/
structure UserTypeDefinition where
  attributeDefinition : Option AttributeDefinition
  typeName : String
deriving DecidableEq, Repr

/-- design.RouteDefinition: verb, path and the parent back-reference set by
`Routing` (`r.Parent = a`), modelled by the owning action's name. -/
structure RouteDefinition where
  verb : String
  path : String
  parent : Option String := none
deriving DecidableEq, Repr

/-- design.ActionDefinition: name, back-reference to the owning resource
(modelled by the resource name), ordered routes, the optional Headers /
Params attributes and the optional named payload type. -/
structure ActionDefinition where
  parent : String
  name : String
  routes : List RouteDefinition := []
  headers : Option AttributeDefinition := none
  params : Option AttributeDefinition := none
  payload : Option UserTypeDefinition := none
deriving DecidableEq, Repr

/-- design.MediaTypeDefinition, reduced to its `Type` field, which
`newAttribute` copies into the fresh attribute's `Reference`. -/
structure MediaTypeDefinition where
  type : DataType
deriving DecidableEq, Repr

/-- design.ResourceDefinition, reduced to the fields the action DSL reads
or writes: name, base path, default media type identifier, the action map
(`nil` map modelled as `none`, a non-nil map as an association list with
unique keys maintained by `mapSet`), and the optional Headers / Params
attributes. -/
structure ResourceDefinition where
  name : String
  basePath : String := ""
  mediaType : String := ""
  actions : Option (List (String × ActionDefinition)) := none
  headers : Option AttributeDefinition := none
  params : Option AttributeDefinition := none
deriving DecidableEq, Repr

/-- The process-wide design registries read by this DSL: `Design.Types`
(name to `*UserTypeDefinition`) and `Design.MediaTypes` (identifier to
media type), both modelled as association lists. -/
structure Design where
  types : List (String × UserTypeDefinition) := []
  mediaTypes : List (String × MediaTypeDefinition) := []
deriving DecidableEq, Repr

/-- Go map lookup on an association list. -/
def mapLookup (k : String) : List (String × α) → Option α
  | [] => none
  | (k', v) :: rest => if k' = k then some v else mapLookup k rest

/-- Go map assignment `m[k] = v` on an association list: replace the entry
holding `k`, or append a new one. -/
def mapSet (k : String) (v : α) : List (String × α) → List (String × α)
  | [] => [(k, v)]
  | (k', v') :: rest => if k' = k then (k, v) :: rest else (k', v') :: mapSet k v rest

/-- Parent of a ResponseDefinition: either a resource or an action (Go
stores an untyped `Parent` and type-switches on it); `other` covers any
other dynamic type, for which the type switch leaves the media type
identifier empty. -/
inductive ResponseParent where
  | resource : ResourceDefinition → ResponseParent
  | action : ActionDefinition → ResourceDefinition → ResponseParent
  | other : ResponseParent

/-- design.ResponseDefinition, reduced to the fields `Headers` touches: the
optional Headers attribute and the parent back-reference. -/
structure ResponseDefinition where
  headers : Option AttributeDefinition := none
  parent : ResponseParent := ResponseParent.other

/-- A configuration callback run by `executeDSL` against a target
definition: it yields the mutated target and the success flag `executeDSL`
reports. -/
def Callback (α : Type) : Type := α → α × Bool

/-- Modelled from the spec (4.2, the callback executor lives outside
src/): `executeDSL` pushes the target, runs the callback, pops the target
and returns whether execution succeeded; in the embedding a callback is a
pure function already yielding the mutated target and that flag. -/
def executeDSL (dsl : Callback α) (target : α) : α × Bool := dsl target

/-- The innermost frame of the ambient evaluation stack, as seen by the
context resolver: an action (with its parent resource, reachable through
the `Parent` pointer), a resource, a response, or anything else. -/
inductive EvalContext where
  | action : ActionDefinition → ResourceDefinition → EvalContext
  | resource : ResourceDefinition → EvalContext
  | response : ResponseDefinition → EvalContext
  | other : EvalContext

/-- Modelled from the spec (4.1, the context-resolver helpers live outside
src/): the configuration error reported when `actionDefinition(true)`
fails. -/
def actionContextError : String := "must be used inside a block of kind action"

/-- Modelled from the spec (4.1): the configuration error reported when
`resourceDefinition(true)` fails. -/
def resourceContextError : String := "must be used inside a block of kind resource"

/-- Modelled from the spec (4.1): the configuration error reported when
`responseDefinition(true)` fails. -/
def responseContextError : String := "must be used inside a block of kind response"

/-- newAttribute (src/design/dsl/action.go:252): a fresh attribute whose
`Reference` is the `Type` of the media type registered under `baseMT`, or
nil when the identifier is unknown. -/
def newAttribute (design : Design) (baseMT : String) : AttributeDefinition :=
  match mapLookup baseMT design.mediaTypes with
  | some mt => { reference := some mt.type }
  | none => { reference := none }

/-- The polymorphic `p interface{}` argument of `Payload`: the four shapes
its type switch handles — a bare callback, a `*AttributeDefinition`, a
`DataStructure` (whose `Definition()` is the carried attribute), a type
name string — plus any other value, which no case of the switch matches. -/
inductive PayloadSource where
  | callback : Callback AttributeDefinition → PayloadSource
  | attr : AttributeDefinition → PayloadSource
  | dataStructure : AttributeDefinition → PayloadSource
  | name : String → PayloadSource
  | other : PayloadSource

/-- Outcome of one DSL operation: normal return with the updated context
frame and the reported errors, or a runtime panic (Go nil-pointer
dereference) after reporting the errors collected so far. -/
inductive Outcome where
  | ok : EvalContext → List String → Outcome
  | crash : List String → Outcome

/-- Splits a character list at a separator; the segment list is never
empty. -/
def splitChar (sep : Char) : List Char → List (List Char)
  | [] => [[]]
  | c :: rest =>
    let r := splitChar sep rest
    if c = sep then [] :: r
    else (c :: r.headD []) :: r.tail

/-- Uppercases the first character of a segment. -/
def capSeg : List Char → List Char
  | [] => []
  | c :: rest => c.toUpper :: rest

/-- Modelled from the spec (out-of-scope name-casing utility
`inflect.Camelize`): capitalize each underscore-separated segment and
concatenate. -/
def Camelize (s : String) : String :=
  String.mk ((splitChar '_' s.data).map capSeg).flatten

/-- Payload (src/design/dsl/action.go:208-248), translated clause by
clause.  `dsls` holds the variadic trailing callbacks.  Notable source
behaviours kept as-is: the "invalid arguments" report is not followed by a
return, the result of `executeDSL` is ignored, the payload is assigned on
every path that reaches the end of the function, and an unknown type name
reports an error and then dereferences the nil `*UserTypeDefinition`
(modelled as `Outcome.crash`). -/
def Payload (design : Design) (ctx : EvalContext) (p : PayloadSource)
    (dsls : List (Callback AttributeDefinition)) : Outcome :=
  if 1 < dsls.length then
    Outcome.ok ctx ["too many arguments given to Payload"]
  else
    match ctx with
    | EvalContext.action a res =>
      let step : Except (List String)
          (Option AttributeDefinition × Option (Callback AttributeDefinition) × List String) :=
        match p with
        | PayloadSource.callback f =>
          let att0 := newAttribute design res.mediaType
          Except.ok (some { att0 with type := some DataType.object }, some f, [])
        | PayloadSource.attr att => Except.ok (some att, none, [])
        | PayloadSource.dataStructure att => Except.ok (some att, none, [])
        | PayloadSource.name s =>
          match mapLookup s design.types with
          | some ut => Except.ok (ut.attributeDefinition, none, [])
          | none => Except.error ["unknown payload type " ++ s]
        | PayloadSource.other => Except.ok (none, none, [])
      match step with
      | Except.error errs => Outcome.crash errs
      | Except.ok (att, dsl0, errs1) =>
        let dslAndErrs : Option (Callback AttributeDefinition) × List String :=
          match dsls with
          | [d] =>
            if dsl0.isSome then
              (some d, ["invalid arguments in Payload call, must be (type), (dsl) or (type, dsl)"])
            else
              (some d, [])
          | _ => (dsl0, [])
        let att2 : Option AttributeDefinition :=
          match dslAndErrs.1, att with
          | some d, some x => some (executeDSL d x).1
          | _, _ => att
        let rn := Camelize res.name
        let an := Camelize a.name
        let pl : UserTypeDefinition :=
          { attributeDefinition := att2, typeName := an ++ rn ++ "Payload" }
        Outcome.ok (EvalContext.action { a with payload := some pl } res) (errs1 ++ dslAndErrs.2)
    | _ => Outcome.ok ctx [actionContextError]

/-- Modelled from the spec (the `FullPath` method lives outside src/): the
fully-qualified base path of a resource, here the stored base path. -/
def FullPath (r : ResourceDefinition) : String := r.basePath

/-- Action (src/design/dsl/action.go:41-58): inside a resource, look the
name up in the action map (initializing a nil map), create a fresh
definition when absent, run the callback against it, and store it under
the name only when the callback succeeds.  Go mutates the looked-up
definition in place, so when the entry already existed the map keeps the
mutated definition even on failure; the model writes that back
explicitly. -/
def Action (ctx : EvalContext) (name : String) (dsl : Callback ActionDefinition) :
    EvalContext × List String :=
  match ctx with
  | EvalContext.resource r =>
    let acts := r.actions.getD []
    let found := mapLookup name acts
    let action : ActionDefinition :=
      match found with
      | some a => a
      | none => { parent := r.name, name := name }
    let ran := executeDSL dsl action
    if ran.2 then
      (EvalContext.resource { r with actions := some (mapSet name ran.1 acts) }, [])
    else
      match found with
      | some _ =>
        (EvalContext.resource { r with actions := some (mapSet name ran.1 acts) }, [])
      | none => (EvalContext.resource { r with actions := some acts }, [])
  | _ => (ctx, [resourceContextError])

/-- The formatted message of
`ReportError(%duplicate wildcard ...%, wc, a.Parent.FullPath(), r.Path)`
(src/design/dsl/action.go:73-74). -/
def dupMsg (wc basePath routePath : String) : String :=
  "duplicate wildcard \"" ++ wc ++ "\" in resource base path \"" ++ basePath ++
    "\" and action route \"" ++ routePath ++ "\""

/-- The duplicate-wildcard errors one route contributes: for every name of
the resource base path's wildcard list and every name of the route path's
wildcard list that coincide, one report (outer loop over the base-path
names, inner loop over the route names, as in the source). -/
def routeDupErrors (ew : String → List String) (basePath routePath : String) : List String :=
  (ew basePath).flatMap fun rwc =>
    (ew routePath).filterMap fun wc =>
      if rwc = wc then some (dupMsg wc basePath routePath) else none

/-- The `for _, r := range routes` loop of Routing: validate each route
against the base path, set its parent back-reference and append it. -/
def routingLoop (ew : String → List String) (basePath actName : String) :
    List RouteDefinition → ActionDefinition → ActionDefinition × List String
  | [], a => (a, [])
  | r :: rest, a =>
    let errs := routeDupErrors ew basePath r.path
    let r' := { r with parent := some actName }
    let next := routingLoop ew basePath actName rest { a with routes := a.routes ++ [r'] }
    (next.1, errs ++ next.2)

/-- Routing (src/design/dsl/action.go:65-82), parametrized by the
externally supplied pure wildcard-extraction function `ew`
(design.ExtractWildcards): inside an action, run the loop; otherwise
`actionDefinition(true)` reports a context error. -/
def Routing (ew : String → List String) (ctx : EvalContext)
    (routes : List RouteDefinition) : EvalContext × List String :=
  match ctx with
  | EvalContext.action a res =>
    let out := routingLoop ew (FullPath res) a.name routes a
    (EvalContext.action out.1 res, out.2)
  | _ => (ctx, [actionContextError])

/-- Headers (src/design/dsl/action.go:137-164): try the action context,
then the resource context, then the response context (required).  The
action and resource branches seed a fresh attribute from the applicable
media type and commit it only when the callback succeeds; the response
branch first rejects redefinition, then resolves the media type through
the response's parent. -/
def Headers (design : Design) (ctx : EvalContext)
    (dsl : Callback AttributeDefinition) : EvalContext × List String :=
  match ctx with
  | EvalContext.action a res =>
    let headers := newAttribute design res.mediaType
    let ran := executeDSL dsl headers
    if ran.2 then (EvalContext.action { a with headers := some ran.1 } res, [])
    else (EvalContext.action a res, [])
  | EvalContext.resource r =>
    let headers := newAttribute design r.mediaType
    let ran := executeDSL dsl headers
    if ran.2 then (EvalContext.resource { r with headers := some ran.1 }, [])
    else (EvalContext.resource r, [])
  | EvalContext.response r =>
    match r.headers with
    | some _ => (EvalContext.response r, ["headers already defined"])
    | none =>
      let mtid : String :=
        match r.parent with
        | ResponseParent.resource pa => pa.mediaType
        | ResponseParent.action _ pres => pres.mediaType
        | ResponseParent.other => ""
      let h := newAttribute design mtid
      let ran := executeDSL dsl h
      if ran.2 then (EvalContext.response { r with headers := some ran.1 }, [])
      else (EvalContext.response r, [])
  | EvalContext.other => (ctx, [responseContextError])

/-- Params (src/design/dsl/action.go:179-191): try the action context,
then the resource context (required); each branch seeds a fresh attribute
from the applicable media type and commits it only when the callback
succeeds. -/
def Params (design : Design) (ctx : EvalContext)
    (dsl : Callback AttributeDefinition) : EvalContext × List String :=
  match ctx with
  | EvalContext.action a res =>
    let params := newAttribute design res.mediaType
    let ran := executeDSL dsl params
    if ran.2 then (EvalContext.action { a with params := some ran.1 } res, [])
    else (EvalContext.action a res, [])
  | EvalContext.resource r =>
    let params := newAttribute design r.mediaType
    let ran := executeDSL dsl params
    if ran.2 then (EvalContext.resource { r with params := some ran.1 }, [])
    else (EvalContext.resource r, [])
  | _ => (ctx, [resourceContextError])

/-- The type name of the payload carried by the action of an `ok` outcome,
when there is one. -/
def payloadNameOf : Outcome → Option String
  | Outcome.ok (EvalContext.action a _) _ => a.payload.map (fun pl => pl.typeName)
  | _ => none

/-- Whether an outcome is a normal (non-crashing) return. -/
def isOk : Outcome → Bool
  | Outcome.ok _ _ => true
  | Outcome.crash _ => false

/-- The resource carried by a context frame, when it is a resource frame. -/
def resourceOf : EvalContext → Option ResourceDefinition
  | EvalContext.resource r => some r
  | _ => none

/-- The number of entries of an association list holding the key. -/
def countKey (k : String) (l : List (String × α)) : Nat :=
  l.countP fun p => decide (p.1 = k)

/-! Concrete fixtures used by closed counterexamples and witnesses. -/

/-- An empty design: no registered types, no registered media types. -/
def design0 : Design := {}

/-- A concrete resource named Account. -/
def res0 : ResourceDefinition := { name := "Account", basePath := "/accounts/:id" }

/-- A concrete action named Update on the Account resource, with no
payload assigned yet. -/
def act0 : ActionDefinition := { parent := "Account", name := "Update" }

/-- A configuration callback that succeeds without touching its target. -/
def cbOk : Callback AttributeDefinition := fun x => (x, true)

/-- A configuration callback that adds one member and succeeds. -/
def cbAddMember : Callback AttributeDefinition := fun x =>
  ({ x with members := x.members ++ ["name"] }, true)

/-- A configuration callback that adds one member and then fails. -/
def cbFail : Callback AttributeDefinition := fun x =>
  ({ x with members := x.members ++ ["partial"] }, false)

/-- The definition the `Action` body works on: the one registered under
the name in the resource's action map, or a fresh one carrying the parent
back-reference and the name (src/design/dsl/action.go:46-52). -/
def initialAction (r : ResourceDefinition) (n : String) : ActionDefinition :=
  match mapLookup n (r.actions.getD []) with
  | some a => a
  | none => { parent := r.name, name := n }

/-- A concrete response that already carries a Headers attribute. -/
def resp0 : ResponseDefinition :=
  { headers := some { members := ["X-Request-Id"] }, parent := ResponseParent.other }

/-- A concrete route whose path reuses the `id` wildcard of `res0`'s base
path. -/
def route0 : RouteDefinition := { verb := "PUT", path := "/:id" }

/-- An action callback that sets the headers attribute and succeeds. -/
def d1a : Callback ActionDefinition := fun a => ({ a with headers := some {} }, true)

/-- An action callback that sets the params attribute and succeeds. -/
def d2a : Callback ActionDefinition := fun a => ({ a with params := some {} }, true)

/-- A sample wildcard extractor used by witnesses: the name following a
colon in each slash-separated segment (a concrete stand-in for the
externally supplied `design.ExtractWildcards`, which the theorems take as
a parameter). -/
def sampleWildcards (s : String) : List String :=
  (splitChar '/' s.data).filterMap fun seg =>
    match seg with
    | c :: rest => if c = ':' then some (String.mk rest) else none
    | [] => none

end GoaDsl

namespace GoaDsl

/-- C1 counterexample: with a callback as the payload source plus one
override callback, the call reports the call-shape error yet still assigns
a payload (built by the override callback against the fresh object
attribute, the source callback being discarded), although the action's
Payload field was nil before the call — refuting that the call aborts with
no payload assigned. -/
theorem C1_counterexample :
    Payload design0 (EvalContext.action act0 res0) (PayloadSource.callback cbOk) [cbAddMember] =
      Outcome.ok
        (EvalContext.action
          { act0 with payload := some {
              attributeDefinition := some {
                  reference := none, type := some DataType.object, members := ["name"] },
              typeName := "UpdateAccountPayload" } } res0)
        ["invalid arguments in Payload call, must be (type), (dsl) or (type, dsl)"]
    ∧ act0.payload = none :=
  ⟨rfl, rfl⟩

/-- C1 (amended): for every action context, calling Payload with a
configuration callback as the source and one override callback reports the
call-shape error but does not abort: the source callback is discarded, the
override callback is executed against the freshly created object
attribute, and a payload with the synthesized name is still assigned. -/
theorem C1_payload_callback_with_override (design : Design) (a : ActionDefinition)
    (res : ResourceDefinition) (f g : Callback AttributeDefinition) :
    Payload design (EvalContext.action a res) (PayloadSource.callback f) [g] =
      Outcome.ok
        (EvalContext.action
          { a with payload := some {
              attributeDefinition :=
                some (g { newAttribute design res.mediaType with type := some DataType.object }).1,
              typeName := Camelize a.name ++ Camelize res.name ++ "Payload" } } res)
        ["invalid arguments in Payload call, must be (type), (dsl) or (type, dsl)"] :=
  rfl

/-- C2: requesting a payload by a type name absent from the registry
reports the "unknown payload type" error and then dereferences the nil
`*UserTypeDefinition` returned by the map lookup, crashing the build pass
instead of leaving the payload unset and continuing. -/
theorem C2_unknown_type_crash :
    Payload design0 (EvalContext.action act0 res0) (PayloadSource.name "Nonexistent") [] =
      Outcome.crash ["unknown payload type Nonexistent"] :=
  rfl

/-- C3 counterexample: a Payload call whose source callback fails (returns
success = false after a partial mutation) still commits a payload holding
the partially mutated attribute — refuting that the payload is assigned
only when the callback execution succeeds. -/
theorem C3_counterexample :
    Payload design0 (EvalContext.action act0 res0) (PayloadSource.callback cbFail) [] =
      Outcome.ok
        (EvalContext.action
          { act0 with payload := some {
              attributeDefinition := some {
                  reference := none, type := some DataType.object, members := ["partial"] },
              typeName := "UpdateAccountPayload" } } res0)
        []
    ∧ (cbFail { reference := none, type := some DataType.object, members := [] }).2 = false :=
  ⟨rfl, rfl⟩

/-- C3 (amended): the configuration callback (whether the source or the
override) is executed against the resolved attribute, but its success flag
is ignored: the payload — including any partial mutations left by a failed
callback — is committed unconditionally.  The committed outcome below does
not depend on the callback's success flag. -/
theorem C3_payload_committed_regardless (design : Design) (a : ActionDefinition)
    (res : ResourceDefinition) (f g : Callback AttributeDefinition)
    (att : AttributeDefinition) :
    Payload design (EvalContext.action a res) (PayloadSource.callback f) [] =
      Outcome.ok
        (EvalContext.action
          { a with payload := some {
              attributeDefinition :=
                some (f { newAttribute design res.mediaType with type := some DataType.object }).1,
              typeName := Camelize a.name ++ Camelize res.name ++ "Payload" } } res)
        []
    ∧ Payload design (EvalContext.action a res) (PayloadSource.attr att) [g] =
      Outcome.ok
        (EvalContext.action
          { a with payload := some {
              attributeDefinition := some (g att).1,
              typeName := Camelize a.name ++ Camelize res.name ++ "Payload" } } res)
        [] :=
  ⟨rfl, rfl⟩

/-- C10: a Payload source of none of the four supported shapes (an
integer, say) matches no case of the type switch: no error is reported and
a payload whose underlying attribute definition is nil is still assigned,
carrying the synthesized type name. -/
theorem C10_unsupported_source (design : Design) (a : ActionDefinition)
    (res : ResourceDefinition) :
    Payload design (EvalContext.action a res) PayloadSource.other [] =
      Outcome.ok
        (EvalContext.action
          { a with payload := some {
              attributeDefinition := none,
              typeName := Camelize a.name ++ Camelize res.name ++ "Payload" } } res)
        [] :=
  rfl

/-! Helper lemmas about the association-list map operations and the
routing loop, shared by the claim theorems. -/

theorem mapLookup_mapSet_self (k : String) (v : α) (l : List (String × α)) :
    mapLookup k (mapSet k v l) = some v := by
  induction l with
  | nil => simp [mapSet, mapLookup]
  | cons p rest ih =>
    obtain ⟨k', v'⟩ := p
    by_cases h : k' = k
    · simp [mapSet, mapLookup, h]
    · simp [mapSet, mapLookup, h, ih]

theorem countKey_cons (k : String) (p : String × α) (l : List (String × α)) :
    countKey k (p :: l) = countKey k l + (if p.1 = k then 1 else 0) := by
  simp [countKey, List.countP_cons]

theorem countKey_mapSet (k : String) (v : α) (l : List (String × α))
    (h : countKey k l ≤ 1) : countKey k (mapSet k v l) = 1 := by
  induction l with
  | nil => simp [mapSet, countKey]
  | cons p rest ih =>
    obtain ⟨k', v'⟩ := p
    rw [countKey_cons] at h
    by_cases hk : k' = k
    · rw [hk] at h
      simp at h
      have hzero : countKey k rest = 0 := by omega
      simp [mapSet, hk, countKey_cons, hzero]
    · have hrest : countKey k rest ≤ 1 := by
        simp [hk] at h; omega
      simp [mapSet, hk, countKey_cons, ih hrest]

theorem routingLoop_fst (ew : String → List String) (bp n : String)
    (routes : List RouteDefinition) :
    ∀ a : ActionDefinition, (routingLoop ew bp n routes a).1 =
      { a with routes := a.routes ++ routes.map fun r => { r with parent := some n } } := by
  induction routes with
  | nil => intro a; simp [routingLoop]
  | cons r rest ih =>
    intro a
    simp [routingLoop, ih, List.append_assoc]

theorem routingLoop_snd (ew : String → List String) (bp n : String)
    (routes : List RouteDefinition) :
    ∀ a : ActionDefinition, (routingLoop ew bp n routes a).2 =
      routes.flatMap fun r => routeDupErrors ew bp r.path := by
  induction routes with
  | nil => intro a; simp [routingLoop]
  | cons r rest ih =>
    intro a
    simp [routingLoop, ih]

theorem Action_resource_success (r : ResourceDefinition) (n : String)
    (d : Callback ActionDefinition) (h : (d (initialAction r n)).2 = true) :
    Action (EvalContext.resource r) n d =
      (EvalContext.resource
        { r with actions := some (mapSet n (d (initialAction r n)).1 (r.actions.getD [])) },
        []) := by
  cases hf : mapLookup n (r.actions.getD []) with
  | some a0 =>
    have hinit : initialAction r n = a0 := by simp [initialAction, hf]
    rw [hinit] at h ⊢
    simp [Action, executeDSL, hf, h]
  | none =>
    have hinit : initialAction r n = { parent := r.name, name := n } := by
      simp [initialAction, hf]
    rw [hinit] at h ⊢
    simp [Action, executeDSL, hf, h]

/-- C4: declaring an action named `n` twice on the same resource, with
both callbacks succeeding, leaves exactly one entry under `n` in the
resource's action map, and that entry is the second callback's mutation of
the first declaration's result — the first declaration's fields are
augmented, never discarded. -/
theorem C4_action_redeclare_merges (r : ResourceDefinition) (n : String)
    (d1 d2 : Callback ActionDefinition)
    (huniq : countKey n (r.actions.getD []) ≤ 1)
    (h1 : (d1 (initialAction r n)).2 = true)
    (h2 : (d2 (d1 (initialAction r n)).1).2 = true) :
    ∃ r2 : ResourceDefinition,
      resourceOf (Action (Action (EvalContext.resource r) n d1).1 n d2).1 = some r2
      ∧ countKey n (r2.actions.getD []) = 1
      ∧ mapLookup n (r2.actions.getD []) = some (d2 (d1 (initialAction r n)).1).1 := by
  have e1 := Action_resource_success r n d1 h1
  have hinit2 :
      initialAction
        { r with actions := some (mapSet n (d1 (initialAction r n)).1 (r.actions.getD [])) } n =
      (d1 (initialAction r n)).1 := by
    simp [initialAction, mapLookup_mapSet_self]
  have e2 := Action_resource_success
    { r with actions := some (mapSet n (d1 (initialAction r n)).1 (r.actions.getD [])) }
    n d2 (by rw [hinit2]; exact h2)
  rw [hinit2] at e2
  refine
    ⟨{ r with actions := some (mapSet n (d2 (d1 (initialAction r n)).1).1 (mapSet n (d1 (initialAction r n)).1 (r.actions.getD []))) },
      ?_, ?_, ?_⟩
  · simp [e1, e2, resourceOf]
  · simp only [Option.getD_some]
    exact countKey_mapSet n _ _ (le_of_eq (countKey_mapSet n _ _ huniq))
  · simp only [Option.getD_some]
    exact mapLookup_mapSet_self n _ _

/-- C4 witness: declaring Update twice on the Account resource — first
setting headers, then params — yields one entry holding both. -/
theorem C4_action_redeclare_merges_witness :
    ∃ r2 : ResourceDefinition,
      resourceOf (Action (Action (EvalContext.resource res0) "Update" d1a).1 "Update" d2a).1 =
        some r2
      ∧ countKey "Update" (r2.actions.getD []) = 1
      ∧ mapLookup "Update" (r2.actions.getD []) =
          some (d2a (d1a (initialAction res0 "Update")).1).1 :=
  C4_action_redeclare_merges res0 "Update" d1a d2a (by decide) rfl rfl

/-- C5: whenever a Payload call in an action context returns normally (at
most one trailing callback, no crash), the assigned payload's type name is
`Camelize actionName ++ Camelize resourceName ++ "Payload"`; in
particular, for action Update on resource Account it is
UpdateAccountPayload, whatever the payload source — so two calls with
identical name pairs synthesize identical names. -/
theorem C5_payload_name_deterministic (design : Design) (a : ActionDefinition)
    (res : ResourceDefinition) (p : PayloadSource)
    (dsls : List (Callback AttributeDefinition))
    (hlen : dsls.length ≤ 1)
    (hok : isOk (Payload design (EvalContext.action a res) p dsls) = true) :
    payloadNameOf (Payload design (EvalContext.action a res) p dsls) =
      some (Camelize a.name ++ Camelize res.name ++ "Payload")
    ∧ (a.name = "Update" → res.name = "Account" →
        payloadNameOf (Payload design (EvalContext.action a res) p dsls) =
          some "UpdateAccountPayload") := by
  have key : payloadNameOf (Payload design (EvalContext.action a res) p dsls) =
      some (Camelize a.name ++ Camelize res.name ++ "Payload") := by
    rcases dsls with _ | ⟨d, _ | ⟨e, rest⟩⟩
    · cases p with
      | callback f => rfl
      | attr att => rfl
      | dataStructure att => rfl
      | name s =>
        cases hl : mapLookup s design.types with
        | some ut => simp [Payload, payloadNameOf, hl]
        | none => exact absurd hok (by simp [Payload, isOk, hl])
      | other => rfl
    · cases p with
      | callback f => rfl
      | attr att => rfl
      | dataStructure att => rfl
      | name s =>
        cases hl : mapLookup s design.types with
        | some ut => simp [Payload, payloadNameOf, hl]
        | none => exact absurd hok (by simp [Payload, isOk, hl])
      | other => rfl
    · exact absurd hlen (by simp)
  refine ⟨key, fun h1 h2 => ?_⟩
  rw [key, h1, h2]
  rfl

/-- C5 witness: a concrete successful resolution for Update on Account
synthesizes the name UpdateAccountPayload. -/
theorem C5_payload_name_deterministic_witness :
    payloadNameOf (Payload design0 (EvalContext.action act0 res0) PayloadSource.other []) =
      some "UpdateAccountPayload" :=
  (C5_payload_name_deterministic design0 act0 res0 PayloadSource.other []
    (by decide) rfl).2 rfl rfl

/-- C6: for an action of a resource with full base path P, every wildcard
name appearing both in the wildcard list of P and in the wildcard list of
a registered route's path Q contributes a duplicate-wildcard error naming
the wildcard, P and Q; a route whose wildcard list is disjoint from P's
registers with zero errors. -/
theorem C6_duplicate_wildcard_errors (ew : String → List String)
    (a : ActionDefinition) (res : ResourceDefinition) :
    (∀ (routes : List RouteDefinition) (q : RouteDefinition) (w : String), q ∈ routes →
        w ∈ ew (FullPath res) → w ∈ ew q.path →
        dupMsg w (FullPath res) q.path ∈ (Routing ew (EvalContext.action a res) routes).2)
    ∧ (∀ q : RouteDefinition, (∀ w, w ∈ ew (FullPath res) → w ∉ ew q.path) →
        (Routing ew (EvalContext.action a res) [q]).2 = []) := by
  constructor
  · intro routes q w hq hw1 hw2
    have : (Routing ew (EvalContext.action a res) routes).2 =
        routes.flatMap fun r => routeDupErrors ew (FullPath res) r.path := by
      simp [Routing, routingLoop_snd]
    rw [this]
    refine List.mem_flatMap.mpr ⟨q, hq, ?_⟩
    refine List.mem_flatMap.mpr ⟨w, hw1, ?_⟩
    exact List.mem_filterMap.mpr ⟨w, hw2, by simp⟩
  · intro q hdisj
    have : (Routing ew (EvalContext.action a res) [q]).2 =
        routeDupErrors ew (FullPath res) q.path := by
      simp [Routing, routingLoop_snd]
    rw [this]
    refine List.flatMap_eq_nil_iff.mpr fun rwc hrwc => ?_
    refine List.filterMap_eq_nil_iff.mpr fun wc hwc => ?_
    have hne : rwc ≠ wc := fun he => hdisj rwc hrwc (he ▸ hwc)
    simp [hne]

/-- C6 witness: registering route PUT /:id on an action of the Account
resource (base path /accounts/:id) reports the duplicate-wildcard error
for id. -/
theorem C6_duplicate_wildcard_errors_witness :
    dupMsg "id" (FullPath res0) route0.path ∈
      (Routing sampleWildcards (EvalContext.action act0 res0) [route0]).2 :=
  (C6_duplicate_wildcard_errors sampleWildcards act0 res0).1 [route0] route0 "id"
    (by simp) (by decide) (by decide)

/-- C7: every route handed to Routing — conflicting or not — gets its
parent back-reference set to the action and is appended to the action's
route sequence in call order. -/
theorem C7_routes_appended_in_order (ew : String → List String)
    (a : ActionDefinition) (res : ResourceDefinition) (routes : List RouteDefinition) :
    (Routing ew (EvalContext.action a res) routes).1 =
      EvalContext.action
        { a with routes := a.routes ++ routes.map fun r => { r with parent := some a.name } }
        res := by
  simp [Routing, routingLoop_fst]

/-- C8: a Headers call on a response that already carries a Headers
attribute reports the redeclaration error and returns the response
unchanged — the first-assigned attribute, contents included, stays in
place. -/
theorem C8_headers_redeclaration (design : Design) (resp : ResponseDefinition)
    (dsl : Callback AttributeDefinition) (h0 : AttributeDefinition)
    (hset : resp.headers = some h0) :
    Headers design (EvalContext.response resp) dsl =
      (EvalContext.response resp, ["headers already defined"]) := by
  obtain ⟨hs, pr⟩ := resp
  simp only at hset
  subst hset
  rfl

/-- C8 witness: a second Headers call on a response whose Headers
attribute is set reports the error and leaves the response as it was. -/
theorem C8_headers_redeclaration_witness :
    Headers design0 (EvalContext.response resp0) cbAddMember =
      (EvalContext.response resp0, ["headers already defined"]) :=
  C8_headers_redeclaration design0 resp0 cbAddMember { members := ["X-Request-Id"] } rfl

/-- C9: invoking Params when the innermost context is neither an action
nor a resource reports the resource-context configuration error and
changes nothing: the context frame is returned untouched, and the call
returns normally rather than aborting. -/
theorem C9_params_context_error (design : Design) (ctx : EvalContext)
    (dsl : Callback AttributeDefinition)
    (hna : ∀ (a : ActionDefinition) (res : ResourceDefinition),
      ctx ≠ EvalContext.action a res)
    (hnr : ∀ r : ResourceDefinition, ctx ≠ EvalContext.resource r) :
    Params design ctx dsl = (ctx, [resourceContextError]) := by
  cases ctx with
  | action a res => exact absurd rfl (hna a res)
  | resource r => exact absurd rfl (hnr r)
  | response r => rfl
  | other => rfl

/-- C9 witness: Params invoked with no active definition context reports
the context error and creates nothing. -/
theorem C9_params_context_error_witness :
    Params design0 EvalContext.other cbAddMember =
      (EvalContext.other, [resourceContextError]) :=
  C9_params_context_error design0 EvalContext.other cbAddMember
    (fun _ _ h => EvalContext.noConfusion h)
    (fun _ h => EvalContext.noConfusion h)

end GoaDsl
